import Mathlib

/-!
Shallow embedding of simpleperf's `report-sample` command
(`src/simpleperf/cmd_report_sample.cpp`): callchain classification,
protobuf-style report encoding with little-endian 32-bit length framing,
the stream decoder `DumpProtobufReport`, option parsing and the `Run`
driver.  Strings stay Lean `String`s, machine integers are `Nat` with
explicit `% 2 ^ 32` where the code truncates, file I/O becomes explicit
`Option`-valued environments.
-/

namespace ReportSample

/-- Entry of `proto::Sample`'s repeated `callchain` field: instruction
pointer, demangled symbol name and module (dso) path, exactly the three
fields set by `PrintSampleRecordInProtobuf`. -/
structure CallChainEntry where
  ip : Nat
  symbol : String
  file : String
  deriving Repr, DecidableEq

/-- The `proto::Sample` message: timestamp plus resolved callchain. -/
structure Sample where
  time : Nat
  callchain : List CallChainEntry
  deriving Repr, DecidableEq

/-- The `proto::Record` message: a type tag and a sample payload. -/
structure ProtoRecord where
  type : Nat
  sample : Sample
  deriving Repr, DecidableEq

/-- Modelled from the spec: the enumeration value `Record_Type_SAMPLE` of
`report_sample.proto` (the `.proto` file is outside `src/`); the spec says
the tag enumeration currently has exactly the one variant "sample". -/
def Record_Type_SAMPLE : Nat := 1

/-- The fields of a `SampleRecord` that `cmd_report_sample.cpp` reads:
`tid_data.pid/tid`, `time_data.time`, `ip_data.ip`, `InKernel()` and
`callchain_data.ips`. -/
structure SampleRecord where
  pid : Nat
  tid : Nat
  time : Nat
  ip : Nat
  inKernel : Bool
  ips : List Nat
  deriving Repr, DecidableEq

/-- `PERF_CONTEXT_KERNEL = (u64)-128` from the perf event headers. -/
def PERF_CONTEXT_KERNEL : Nat := 2 ^ 64 - 128

/-- `PERF_CONTEXT_USER = (u64)-512` from the perf event headers. -/
def PERF_CONTEXT_USER : Nat := 2 ^ 64 - 512

/-- `PERF_CONTEXT_MAX = (u64)-4095` from the perf event headers: every
value at or above this threshold is a context marker, not an address. -/
def PERF_CONTEXT_MAX : Nat := 2 ^ 64 - 4095

/-- Abstract address resolver standing for the external
`ThreadTree::FindMap` / `FindSymbol` pair with the thread fixed: maps an
instruction pointer and the current kernel flag to
`(map->dso->Path(), symbol->DemangledName())`. -/
abbrev Resolver := Nat → Bool → String × String

/-- The `switch (ip)` on context markers shared by both sample printers
(`cmd_report_sample.cpp` lines 288-298 and 342-352): `PERF_CONTEXT_KERNEL`
sets the kernel flag, `PERF_CONTEXT_USER` clears it, any other marker is
only logged and leaves the flag unchanged. -/
def perfContextSwitch (inKernel : Bool) (ip : Nat) : Bool :=
  if ip = PERF_CONTEXT_KERNEL then true
  else if ip = PERF_CONTEXT_USER then false
  else inKernel

/-- Resolution of one address under a kernel flag into a callchain entry
(`FindMap`/`FindSymbol` then `set_ip`/`set_symbol`/`set_file`). -/
def resolveEntry (res : Resolver) (ip : Nat) (inKernel : Bool) : CallChainEntry :=
  { ip := ip, symbol := (res ip inKernel).2, file := (res ip inKernel).1 }

/-- The callchain loop of `PrintSampleRecordInProtobuf` (lines 286-314),
textually identical in `PrintSampleRecord` (lines 340-367): walk
`callchain_data.ips` left to right carrying the mutable `in_kernel` and
`first_ip` flags; context markers (`ip >= PERF_CONTEXT_MAX`) update the
flag and emit nothing; the first genuine address equal to the sample's
leaf `ip` is skipped; every other genuine address is resolved under the
current flag and appended. -/
def walkCallchain (res : Resolver) (leaf : Nat) :
    List Nat → Bool → Bool → List CallChainEntry
  | [], _, _ => []
  | ip :: rest, inKernel, firstIp =>
    if PERF_CONTEXT_MAX ≤ ip then
      walkCallchain res leaf rest (perfContextSwitch inKernel ip) firstIp
    else if firstIp ∧ ip = leaf then
      walkCallchain res leaf rest inKernel false
    else
      resolveEntry res ip inKernel :: walkCallchain res leaf rest inKernel false

/-- `PrintSampleRecordInProtobuf` (lines 267-315, the message-building
part): type tag `SAMPLE`, the sample's time, the leaf entry resolved under
the sample's own `InKernel()` flag, then — only when `--show-callchain` is
set — the walked callchain. -/
def PrintSampleRecordInProtobuf (res : Resolver) (showCallchain : Bool)
    (r : SampleRecord) : ProtoRecord :=
  { type := Record_Type_SAMPLE
    sample :=
      { time := r.time
        callchain :=
          resolveEntry res r.ip r.inKernel
            :: (if showCallchain then walkCallchain res r.ip r.ips r.inKernel true
                else []) } }

/-- One output line of the text report or of the protobuf dump, with the
indentation level passed to `PrintIndented`/`FprintIndented` where the two
renderers differ on it. -/
inductive Line where
  | sampleHeaderNum (n : Nat)
  | sampleHeader
  | time (t : Nat)
  | callchainHeader
  | ip (indent : Nat) (v : Nat)
  | dso (indent : Nat) (s : String)
  | symbol (indent : Nat) (s : String)
  deriving Repr, DecidableEq

/-- The three lines `PrintSampleRecord` prints for one callchain entry at
indent 2 (lines 363-365). -/
def textEntryLines (e : CallChainEntry) : List Line :=
  [Line.ip 2 e.ip, Line.dso 2 e.file, Line.symbol 2 e.symbol]

/-- The three lines `DumpProtobufReport` prints for one decoded callchain
entry at indent 2 (lines 244-246). -/
def dumpEntryLines (e : CallChainEntry) : List Line :=
  [Line.ip 2 e.ip, Line.dso 2 e.file, Line.symbol 2 e.symbol]

/-- The five leading lines of a text-mode sample block (lines 330-334):
header, time, leaf ip, leaf dso and leaf symbol at indent 0/1. -/
def leafBlock (res : Resolver) (r : SampleRecord) : List Line :=
  [Line.sampleHeader, Line.time r.time, Line.ip 1 r.ip,
   Line.dso 1 (res r.ip r.inKernel).1, Line.symbol 1 (res r.ip r.inKernel).2]

/-- `PrintSampleRecord` (lines 324-370): the leaf block, then — only when
`--show-callchain` is set — the `callchain:` header and the walked
callchain rendered three lines per entry. -/
def PrintSampleRecord (res : Resolver) (showCallchain : Bool)
    (r : SampleRecord) : List Line :=
  leafBlock res r
    ++ if showCallchain then
        Line.callchainHeader
          :: (walkCallchain res r.ip r.ips r.inKernel true).flatMap textEntryLines
      else []

/-- The rendering `DumpProtobufReport` performs for one decoded sample
(lines 239-247): numbered header, time, `callchain:` header, then each
entry's ip/dso/symbol at indent 2. -/
def renderDecodedSample (num : Nat) (s : Sample) : List Line :=
  Line.sampleHeaderNum num :: Line.time s.time :: Line.callchainHeader
    :: s.callchain.flatMap dumpEntryLines

/-! ### Wire format

The payload serialization below stands for the protobuf library together
with `report_sample.proto`, neither of which is under `src/`. -/

/-- Modelled from the spec: base-128 varint encoder used by the protobuf
serializer (external library, not under `src/`), written with explicit
fuel so it is structurally recursive; `varintEncode` supplies enough. -/
def varintEncodeAux : Nat → Nat → List Nat
  | 0, _ => []
  | fuel + 1, n =>
    if n < 128 then [n] else (n % 128 + 128) :: varintEncodeAux fuel (n / 128)

/-- Modelled from the spec: varint encoding of a natural number. -/
def varintEncode (n : Nat) : List Nat :=
  varintEncodeAux (n + 1) n

/-- Modelled from the spec: varint decoder, inverse of `varintEncode`. -/
def varintDecode : List Nat → Option (Nat × List Nat)
  | [] => none
  | b :: rest =>
    if b < 128 then some (b, rest)
    else
      match varintDecode rest with
      | none => none
      | some (n, rest') => some (b - 128 + 128 * n, rest')

/-- Modelled from the spec: serialization of a string field as a varint
length followed by the character codes. -/
def serString (s : String) : List Nat :=
  varintEncode s.data.length ++ s.data.map Char.toNat

/-- Modelled from the spec: parse a string field. -/
def parseString (bytes : List Nat) : Option (String × List Nat) :=
  match varintDecode bytes with
  | none => none
  | some (n, rest) =>
    if n ≤ rest.length then
      some (String.mk ((rest.take n).map Char.ofNat), rest.drop n)
    else none

/-- Modelled from the spec: serialization of one callchain entry
(`ip`, `symbol`, `file`). -/
def serEntry (e : CallChainEntry) : List Nat :=
  varintEncode e.ip ++ serString e.symbol ++ serString e.file

/-- Modelled from the spec: parse one callchain entry. -/
def parseEntry (bytes : List Nat) : Option (CallChainEntry × List Nat) :=
  match varintDecode bytes with
  | none => none
  | some (ip, rest) =>
    match parseString rest with
    | none => none
    | some (symbol, rest') =>
      match parseString rest' with
      | none => none
      | some (file, rest'') => some (⟨ip, symbol, file⟩, rest'')

/-- Modelled from the spec: parse a counted sequence of callchain
entries. -/
def parseEntries : Nat → List Nat → Option (List CallChainEntry × List Nat)
  | 0, bytes => some ([], bytes)
  | n + 1, bytes =>
    match parseEntry bytes with
    | none => none
    | some (e, rest) =>
      match parseEntries n rest with
      | none => none
      | some (es, rest') => some (e :: es, rest')

/-- Modelled from the spec: serialization of a `Sample` message: time,
entry count, then the entries. -/
def serSample (s : Sample) : List Nat :=
  varintEncode s.time ++ varintEncode s.callchain.length
    ++ s.callchain.flatMap serEntry

/-- Modelled from the spec: parse a `Sample` message. -/
def parseSample (bytes : List Nat) : Option (Sample × List Nat) :=
  match varintDecode bytes with
  | none => none
  | some (time, rest) =>
    match varintDecode rest with
    | none => none
    | some (n, rest') =>
      match parseEntries n rest' with
      | none => none
      | some (es, rest'') => some (⟨time, es⟩, rest'')

/-- Modelled from the spec: serialization of a `Record` message: type tag
then the sample payload; this is the payload whose byte length
`proto_record.ByteSize()` reports. -/
def serRecord (pr : ProtoRecord) : List Nat :=
  varintEncode pr.type ++ serSample pr.sample

/-- Modelled from the spec: `ParseFromCodedStream` under a pushed limit:
parse a `Record` from exactly the limited bytes, failing unless the whole
limit is consumed. -/
def parseRecord (bytes : List Nat) : Option ProtoRecord :=
  match varintDecode bytes with
  | none => none
  | some (ty, rest) =>
    match parseSample rest with
    | none => none
    | some (s, rest') => if rest' = [] then some ⟨ty, s⟩ else none

/-- `WriteLittleEndian32`: the four little-endian bytes of `n`, truncating
to 32 bits as the `uint32` argument does. -/
def writeLE32 (n : Nat) : List Nat :=
  [n % 256, n / 256 % 256, n / 256 ^ 2 % 256, n / 256 ^ 3 % 256]

/-- The framing of one record in the output stream (lines 316-317): the
little-endian 32-bit byte length of the serialized record, then its
bytes. -/
def frameRecord (pr : ProtoRecord) : List Nat :=
  writeLE32 (serRecord pr).length ++ serRecord pr

/-! ### Decoder -/

/-- The read loop of `DumpProtobufReport` (lines 217-248) with the
function-local `static size_t sample_count` made an explicit
argument-and-result, since it persists across invocations within one
process: read a little-endian 32-bit size (failing at end of stream),
stop cleanly on size zero, otherwise parse exactly `size` bytes as a
`Record`, require the `SAMPLE` type tag, render the sample under the
incremented counter and continue.  `none` is the `return false` path. -/
def dumpLoop : Nat → List Nat → Option (List (Nat × Sample) × Nat)
  | counter, b0 :: b1 :: b2 :: b3 :: rest =>
    let size := b0 + 256 * b1 + 256 ^ 2 * b2 + 256 ^ 3 * b3
    if size = 0 then some ([], counter)
    else if rest.length < size then none
    else
      match parseRecord (rest.take size) with
      | none => none
      | some pr =>
        if pr.type ≠ Record_Type_SAMPLE then none
        else
          match dumpLoop (counter + 1) (rest.drop size) with
          | none => none
          | some (blocks, c) => some ((counter + 1, pr.sample) :: blocks, c)
  | _, _ => none
termination_by _ stream => stream.length
decreasing_by
  simp only [List.length_drop, List.length_cons]
  omega

/-- `DumpProtobufReport` (lines 206-251): open the file (the environment
returns `none` when `fopen` fails), run the read loop, and render every
decoded sample; returns the rendered lines and the final counter value. -/
def DumpProtobufReport (counter : Nat) (contents : Option (List Nat)) :
    Option (List Line × Nat) :=
  match contents with
  | none => none
  | some bytes =>
    match dumpLoop counter bytes with
    | none => none
    | some (blocks, c) =>
      some (blocks.flatMap (fun b => renderDecodedSample b.1 b.2), c)

/-- Numbering of a sample sequence the way the decoder's `++sample_count`
does, starting above a given counter value: the i-th sample of the list is
labelled `counter + i + 1`. -/
def numberFrom : Nat → List Sample → List (Nat × Sample)
  | _, [] => []
  | c, s :: t => (c + 1, s) :: numberFrom (c + 1) t

/-! ### Options and driver -/

/-- The option state of `ReportSampleCommand` with its constructor
defaults (lines 76-81). -/
structure Options where
  record_filename : String
  dump_protobuf_report_file : String
  report_filename : String
  show_callchain : Bool
  use_protobuf : Bool
  deriving Repr, DecidableEq

/-- The member initializers of `ReportSampleCommand` (lines 76-78). -/
def initOptions : Options :=
  { record_filename := "perf.data", dump_protobuf_report_file := "",
    report_filename := "", show_callchain := false, use_protobuf := false }

/-- The argument loop of `ParseOptions` (lines 173-197):
`NextArgumentOrError` failing at the end of the list and an unknown
option both abort with `false`. -/
def parseLoop : List String → Options → Option Options
  | [], opts => some opts
  | arg :: rest, opts =>
    if arg = "--dump-protobuf-report" then
      match rest with
      | [] => none
      | v :: rest' => parseLoop rest' { opts with dump_protobuf_report_file := v }
    else if arg = "-i" then
      match rest with
      | [] => none
      | v :: rest' => parseLoop rest' { opts with record_filename := v }
    else if arg = "-o" then
      match rest with
      | [] => none
      | v :: rest' => parseLoop rest' { opts with report_filename := v }
    else if arg = "--protobuf" then
      parseLoop rest { opts with use_protobuf := true }
    else if arg = "--show-callchain" then
      parseLoop rest { opts with show_callchain := true }
    else none

/-- `ParseOptions` (lines 172-204): run the argument loop, then reject
`--protobuf` without a report filename (lines 199-202). -/
def ParseOptions (args : List String) : Option Options :=
  match parseLoop args initOptions with
  | none => none
  | some opts =>
    if opts.use_protobuf ∧ opts.report_filename = "" then none
    else some opts

/-- The externals `Run` touches: the dump file's bytes and the record
file's sample records (both `none` when opening fails), the thread-tree
resolver keyed by pid and tid, and `CodedOutputStream::HadError`. -/
structure Env where
  dumpFileContents : String → Option (List Nat)
  recordFileSamples : String → Option (List SampleRecord)
  res : Nat → Nat → Resolver
  outHadError : Bool

/-- What a successful run produced on its output file. -/
inductive RunOutput where
  | dumped (lines : List Line)
  | textReport (lines : List Line)
  | protobufReport (stream : List Nat)
  deriving Repr, DecidableEq

/-- The full protobuf-mode output stream of a run: each sample record
framed in input order (lines 146-151 with `PrintSampleRecordInProtobuf`),
then the terminating `WriteLittleEndian32(0)` (line 155). -/
def protobufOutput (res : Nat → Nat → Resolver) (showCallchain : Bool)
    (samples : List SampleRecord) : List Nat :=
  (samples.flatMap fun r =>
    frameRecord (PrintSampleRecordInProtobuf (res r.pid r.tid) showCallchain r))
  ++ writeLE32 0

/-- `Run` (lines 104-170): parse options; if `--dump-protobuf-report` was
given, decode that file (with the static counter at its initial value for
the process); otherwise open the record file, then emit either the
protobuf stream (failing when the coded stream reports an error after the
terminator is written) or the text report. -/
def Run (env : Env) (args : List String) : Option RunOutput :=
  match ParseOptions args with
  | none => none
  | some opts =>
    if opts.dump_protobuf_report_file ≠ "" then
      match DumpProtobufReport 0 (env.dumpFileContents opts.dump_protobuf_report_file) with
      | none => none
      | some (lines, _) => some (RunOutput.dumped lines)
    else
      match env.recordFileSamples opts.record_filename with
      | none => none
      | some samples =>
        if opts.use_protobuf then
          if env.outHadError then none
          else some (RunOutput.protobufReport
            (protobufOutput env.res opts.show_callchain samples))
        else
          some (RunOutput.textReport (samples.flatMap fun r =>
            PrintSampleRecord (env.res r.pid r.tid) opts.show_callchain r))

/-! ### Callchain walk lemmas -/

theorem walk_nil (res : Resolver) (leaf : Nat) (ctx first : Bool) :
    walkCallchain res leaf [] ctx first = [] := rfl

theorem walk_sentinel_cons (res : Resolver) (leaf s : Nat) (rest : List Nat)
    (ctx first : Bool) (hs : PERF_CONTEXT_MAX ≤ s) :
    walkCallchain res leaf (s :: rest) ctx first
      = walkCallchain res leaf rest (perfContextSwitch ctx s) first := by
  simp [walkCallchain, hs]

theorem walk_genuine_cons (res : Resolver) (leaf v : Nat) (rest : List Nat)
    (ctx : Bool) (hv : v < PERF_CONTEXT_MAX) :
    walkCallchain res leaf (v :: rest) ctx false
      = resolveEntry res v ctx :: walkCallchain res leaf rest ctx false := by
  simp [walkCallchain, Nat.not_le.mpr hv]

theorem walk_first_skip (res : Resolver) (leaf : Nat) (rest : List Nat)
    (ctx : Bool) (hv : leaf < PERF_CONTEXT_MAX) :
    walkCallchain res leaf (leaf :: rest) ctx true
      = walkCallchain res leaf rest ctx false := by
  simp [walkCallchain, Nat.not_le.mpr hv]

theorem walk_first_emit (res : Resolver) (leaf v : Nat) (rest : List Nat)
    (ctx : Bool) (hv : v < PERF_CONTEXT_MAX) (hne : v ≠ leaf) :
    walkCallchain res leaf (v :: rest) ctx true
      = resolveEntry res v ctx :: walkCallchain res leaf rest ctx false := by
  simp [walkCallchain, Nat.not_le.mpr hv, hne]

theorem walk_sentinel_append (res : Resolver) (leaf : Nat) (pre : List Nat)
    (hpre : ∀ v ∈ pre, PERF_CONTEXT_MAX ≤ v) (l : List Nat) (ctx first : Bool) :
    walkCallchain res leaf (pre ++ l) ctx first
      = walkCallchain res leaf l (pre.foldl perfContextSwitch ctx) first := by
  induction pre generalizing ctx with
  | nil => rfl
  | cons s t ih =>
    have hs : PERF_CONTEXT_MAX ≤ s := hpre s (List.mem_cons_self s t)
    have ht : ∀ v ∈ t, PERF_CONTEXT_MAX ≤ v := fun v hv =>
      hpre v (List.mem_cons_of_mem s hv)
    simp only [List.cons_append, walk_sentinel_cons res leaf s _ ctx first hs,
      List.foldl_cons]
    exact ih ht _

theorem walk_map_ip (res : Resolver) (leaf : Nat) (l : List Nat) (ctx : Bool) :
    (walkCallchain res leaf l ctx false).map CallChainEntry.ip
      = l.filter (fun v => v < PERF_CONTEXT_MAX) := by
  induction l generalizing ctx with
  | nil => rfl
  | cons v t ih =>
    by_cases h : PERF_CONTEXT_MAX ≤ v
    · rw [walk_sentinel_cons res leaf v t ctx false h, ih]
      simp [Nat.not_lt.mpr h]
    · have hv : v < PERF_CONTEXT_MAX := Nat.not_le.mp h
      rw [walk_genuine_cons res leaf v t ctx hv]
      simp [resolveEntry, ih, hv]

theorem count_filter_lt_max (A : Nat) (hA : A < PERF_CONTEXT_MAX) (l : List Nat) :
    (l.filter (fun v => v < PERF_CONTEXT_MAX)).count A = l.count A := by
  induction l with
  | nil => rfl
  | cons v t ih =>
    by_cases h : v < PERF_CONTEXT_MAX
    · simp [List.filter_cons, h, List.count_cons, ih]
    · have hvA : A ≠ v := by
        intro e; exact h (e ▸ hA)
      simp [List.filter_cons, h, List.count_cons, ih, hvA]

/-- C2: when the first non-sentinel value of the raw call-chain equals the
sample's leaf instruction pointer it is skipped, so the resolved callchain
contains exactly one entry per later occurrence plus the leaf entry — the
count of entries at that address is one more than the count of its later
occurrences — and a non-first chain value equal to the leaf address is
still emitted as its own frame. -/
theorem leaf_dedup_first_only (res : Resolver) (r : SampleRecord)
    (pre rest : List Nat) (A : Nat)
    (hips : r.ips = pre ++ A :: rest)
    (hpre : ∀ v ∈ pre, PERF_CONTEXT_MAX ≤ v)
    (hA : A = r.ip) (hlt : A < PERF_CONTEXT_MAX) :
    (((PrintSampleRecordInProtobuf res true r).sample.callchain.map
        CallChainEntry.ip).count A) = 1 + rest.count A
    ∧ ∀ ctx, walkCallchain res r.ip (A :: rest) ctx false
        = resolveEntry res A ctx :: walkCallchain res r.ip rest ctx false := by
  constructor
  · have h1 : walkCallchain res r.ip r.ips r.inKernel true
        = walkCallchain res r.ip rest (pre.foldl perfContextSwitch r.inKernel) false := by
      rw [hips, walk_sentinel_append res r.ip pre hpre _ r.inKernel true, hA,
        walk_first_skip res r.ip rest _ (hA ▸ hlt)]
    simp only [PrintSampleRecordInProtobuf, if_pos, List.map_cons, resolveEntry, h1,
      walk_map_ip, if_true]
    rw [List.count_cons]
    rw [count_filter_lt_max A hlt rest]
    simp [hA]
    omega
  · intro ctx
    exact walk_genuine_cons res r.ip A rest ctx hlt

/-- C2 witness: a sample with leaf `5`, raw chain `[5, 5]`: the first `5`
is deduplicated, the second is emitted, so the address `5` appears twice
in the callchain (leaf plus one later occurrence). -/
theorem leaf_dedup_first_only_witness :
    (((PrintSampleRecordInProtobuf (fun _ _ => ("", "")) true
        ⟨1, 1, 10, 5, false, [5, 5]⟩).sample.callchain.map
        CallChainEntry.ip).count 5) = 1 + [5].count 5
    ∧ ∀ ctx, walkCallchain (fun _ _ => ("", "")) 5 (5 :: [5]) ctx false
        = resolveEntry (fun _ _ => ("", "")) 5 ctx
            :: walkCallchain (fun _ _ => ("", "")) 5 [5] ctx false :=
  leaf_dedup_first_only (fun _ _ => ("", "")) ⟨1, 1, 10, 5, false, [5, 5]⟩
    [] [5] 5 rfl (by simp) rfl (by decide)

/-- C3: a context marker (any chain value at or above
`PERF_CONTEXT_MAX`) emits no frame and only updates the context — the
kernel marker to kernel, the user marker to user, any other marker value
leaving it unchanged — and the chain
`[A, KERNEL_MARKER, B, USER_MARKER, C]` resolves `A` under the initial
context, `B` under kernel and `C` under user. -/
theorem context_sentinel_handling (res : Resolver) (leaf : Nat) :
    (∀ s rest ctx first, PERF_CONTEXT_MAX ≤ s →
      walkCallchain res leaf (s :: rest) ctx first
        = walkCallchain res leaf rest (perfContextSwitch ctx s) first)
    ∧ (∀ ctx, perfContextSwitch ctx PERF_CONTEXT_KERNEL = true)
    ∧ (∀ ctx, perfContextSwitch ctx PERF_CONTEXT_USER = false)
    ∧ (∀ ctx s, s ≠ PERF_CONTEXT_KERNEL → s ≠ PERF_CONTEXT_USER →
        perfContextSwitch ctx s = ctx)
    ∧ (∀ A B C ctx, A < PERF_CONTEXT_MAX → B < PERF_CONTEXT_MAX →
        C < PERF_CONTEXT_MAX → A ≠ leaf →
        walkCallchain res leaf
            [A, PERF_CONTEXT_KERNEL, B, PERF_CONTEXT_USER, C] ctx true
          = [resolveEntry res A ctx, resolveEntry res B true,
             resolveEntry res C false]) := by
  have hK : PERF_CONTEXT_MAX ≤ PERF_CONTEXT_KERNEL := by decide
  have hU : PERF_CONTEXT_MAX ≤ PERF_CONTEXT_USER := by decide
  have hKU : PERF_CONTEXT_USER ≠ PERF_CONTEXT_KERNEL := by decide
  refine ⟨fun s rest ctx first hs => walk_sentinel_cons res leaf s rest ctx first hs,
    fun ctx => by simp [perfContextSwitch],
    fun ctx => by simp [perfContextSwitch, hKU],
    fun ctx s h1 h2 => by simp [perfContextSwitch, h1, h2],
    fun A B C ctx hA hB hC hAleaf => ?_⟩
  rw [walk_first_emit res leaf A _ ctx hA hAleaf,
    walk_sentinel_cons res leaf PERF_CONTEXT_KERNEL _ ctx false hK]
  have e1 : perfContextSwitch ctx PERF_CONTEXT_KERNEL = true := by
    simp [perfContextSwitch]
  rw [e1, walk_genuine_cons res leaf B _ true hB,
    walk_sentinel_cons res leaf PERF_CONTEXT_USER _ true false hU]
  have e2 : perfContextSwitch true PERF_CONTEXT_USER = false := by
    simp [perfContextSwitch, hKU]
  rw [e2, walk_genuine_cons res leaf C _ false hC, walk_nil]

/-- C3 witness: the chain `[5, KERNEL_MARKER, 6, USER_MARKER, 7]` with
leaf `0` resolves `5` under the initial user context, `6` under kernel
and `7` under user. -/
theorem context_sentinel_handling_witness :
    walkCallchain (fun _ _ => ("", "")) 0
        [5, PERF_CONTEXT_KERNEL, 6, PERF_CONTEXT_USER, 7] false true
      = [resolveEntry (fun _ _ => ("", "")) 5 false,
         resolveEntry (fun _ _ => ("", "")) 6 true,
         resolveEntry (fun _ _ => ("", "")) 7 false] :=
  (context_sentinel_handling (fun _ _ => ("", "")) 0).2.2.2.2 5 6 7 false
    (by decide) (by decide) (by decide) (by decide)

/-- C4: in both output modes the first frame emitted is the sample's leaf
instruction pointer resolved under the sample's own kernel flag, and with
call-chain reporting disabled or an empty raw call-chain that leaf frame
is the only frame emitted. -/
theorem leaf_frame_first (res : Resolver) (showCallchain : Bool)
    (r : SampleRecord) :
    ((PrintSampleRecordInProtobuf res showCallchain r).sample.callchain.head?
        = some (resolveEntry res r.ip r.inKernel))
    ∧ (∃ restLines, PrintSampleRecord res showCallchain r
        = leafBlock res r ++ restLines)
    ∧ (showCallchain = false →
        (PrintSampleRecordInProtobuf res showCallchain r).sample.callchain
            = [resolveEntry res r.ip r.inKernel]
        ∧ PrintSampleRecord res showCallchain r = leafBlock res r)
    ∧ (r.ips = [] →
        (PrintSampleRecordInProtobuf res showCallchain r).sample.callchain
            = [resolveEntry res r.ip r.inKernel]
        ∧ PrintSampleRecord res showCallchain r
            = leafBlock res r
              ++ if showCallchain then [Line.callchainHeader] else []) := by
  refine ⟨by simp [PrintSampleRecordInProtobuf],
    ⟨if showCallchain then
        Line.callchainHeader
          :: (walkCallchain res r.ip r.ips r.inKernel true).flatMap textEntryLines
      else [], rfl⟩,
    fun h => ?_, fun h => ?_⟩
  · subst h
    exact ⟨by simp [PrintSampleRecordInProtobuf], by simp [PrintSampleRecord]⟩
  · constructor
    · cases showCallchain <;> simp [PrintSampleRecordInProtobuf, h, walk_nil]
    · cases showCallchain <;> simp [PrintSampleRecord, h, walk_nil]

/-- C4 witness: with call-chain reporting disabled and a nonempty raw
chain, the sample with leaf `5` yields exactly its leaf entry. -/
theorem leaf_frame_first_witness :
    (PrintSampleRecordInProtobuf (fun _ _ => ("", "")) false
        ⟨1, 1, 10, 5, false, [6, 7]⟩).sample.callchain
      = [resolveEntry (fun _ _ => ("", "")) 5 false] :=
  ((leaf_frame_first (fun _ _ => ("", "")) false ⟨1, 1, 10, 5, false, [6, 7]⟩).2.2.1
    rfl).1

/-- C5: the decoder renders each decoded sample as its numbered header,
the timestamp, the `callchain:` header, then one indented entry per
resolved frame showing address, module and symbol — per-frame lines
identical to text mode's callchain entry lines. -/
theorem dump_render_shape (num : Nat) (s : Sample) :
    renderDecodedSample num s
      = Line.sampleHeaderNum num :: Line.time s.time :: Line.callchainHeader
          :: s.callchain.flatMap textEntryLines
    ∧ ∀ e, dumpEntryLines e = textEntryLines e :=
  ⟨rfl, fun _ => rfl⟩

/-! ### Serialization round trip -/

theorem varintDecode_encodeAux (fuel : Nat) :
    ∀ n rest, n < fuel →
      varintDecode (varintEncodeAux fuel n ++ rest) = some (n, rest) := by
  induction fuel with
  | zero => intro n rest h; omega
  | succ fuel ih =>
    intro n rest h
    by_cases h128 : n < 128
    · simp [varintEncodeAux, varintDecode, h128]
    · have hrec : varintDecode (varintEncodeAux fuel (n / 128) ++ rest)
          = some (n / 128, rest) := by
        apply ih
        omega
      simp only [varintEncodeAux, if_neg h128, List.cons_append, varintDecode]
      rw [if_neg (by omega), hrec]
      have h2 : n % 128 + 128 - 128 + 128 * (n / 128) = n := by omega
      simp only [h2]

theorem varintDecode_encode (n : Nat) (rest : List Nat) :
    varintDecode (varintEncode n ++ rest) = some (n, rest) :=
  varintDecode_encodeAux (n + 1) n rest (Nat.lt_succ_self n)

theorem varintEncode_ne_nil (n : Nat) : varintEncode n ≠ [] := by
  by_cases h : n < 128 <;> simp [varintEncode, varintEncodeAux, h]

theorem parseString_ser (s : String) (rest : List Nat) :
    parseString (serString s ++ rest) = some (s, rest) := by
  have hlen : (s.data.map Char.toNat).length = s.data.length := by simp
  simp only [serString, List.append_assoc, parseString, varintDecode_encode]
  rw [if_pos (by simp)]
  rw [List.take_left' (by simp), List.drop_left' (by simp)]
  simp [List.map_map, Function.comp_def]

theorem parseEntry_ser (e : CallChainEntry) (rest : List Nat) :
    parseEntry (serEntry e ++ rest) = some (e, rest) := by
  simp only [serEntry, List.append_assoc, parseEntry, varintDecode_encode,
    parseString_ser]

theorem parseEntries_ser (es : List CallChainEntry) (rest : List Nat) :
    parseEntries es.length (es.flatMap serEntry ++ rest) = some (es, rest) := by
  induction es generalizing rest with
  | nil => rfl
  | cons e t ih =>
    simp only [List.length_cons, List.flatMap_cons, List.append_assoc,
      parseEntries, parseEntry_ser, ih]

theorem parseSample_ser (s : Sample) (rest : List Nat) :
    parseSample (serSample s ++ rest) = some (s, rest) := by
  simp only [serSample, List.append_assoc, parseSample, varintDecode_encode,
    parseEntries_ser]

theorem parseRecord_ser (pr : ProtoRecord) :
    parseRecord (serRecord pr) = some pr := by
  have h2 : parseSample (serSample pr.sample ++ []) = some (pr.sample, []) :=
    parseSample_ser pr.sample []
  rw [List.append_nil] at h2
  rw [parseRecord, serRecord, varintDecode_encode]
  simp [h2]

theorem serRecord_ne_nil (pr : ProtoRecord) : serRecord pr ≠ [] := by
  simp [serRecord, varintEncode_ne_nil]

/-! ### Decoding a framed stream -/

theorem writeLE32_eq (n : Nat) :
    writeLE32 n = [n % 256, n / 256 % 256, n / 256 ^ 2 % 256, n / 256 ^ 3 % 256] :=
  rfl

theorem le32_roundtrip (L : Nat) (h : L < 2 ^ 32) :
    L % 256 + 256 * (L / 256 % 256) + 256 ^ 2 * (L / 256 ^ 2 % 256)
      + 256 ^ 3 * (L / 256 ^ 3 % 256) = L := by
  have e2 : (256 : Nat) ^ 2 = 65536 := by norm_num
  have e3 : (256 : Nat) ^ 3 = 16777216 := by norm_num
  have e32 : (2 : Nat) ^ 32 = 4294967296 := by norm_num
  rw [e2, e3] at *
  rw [e32] at h
  omega

theorem dumpLoop_zero (c : Nat) (rest : List Nat) :
    dumpLoop c (writeLE32 0 ++ rest) = some ([], c) := by
  show dumpLoop c (0 :: 0 :: 0 :: 0 :: rest) = some ([], c)
  rw [dumpLoop]
  norm_num

theorem dumpLoop_short (c : Nat) (stream : List Nat) (h : stream.length < 4) :
    dumpLoop c stream = none := by
  match stream, h with
  | [], _ => rw [dumpLoop]; intros _ _ _ _ _ hh; simp at hh
  | [a], _ => rw [dumpLoop]; intros _ _ _ _ _ hh; simp at hh
  | [a, b], _ => rw [dumpLoop]; intros _ _ _ _ _ hh; simp at hh
  | [a, b, d], _ => rw [dumpLoop]; intros _ _ _ _ _ hh; simp at hh

theorem dumpLoop_frame (c : Nat) (pr : ProtoRecord) (rest : List Nat)
    (hlen : (serRecord pr).length < 2 ^ 32)
    (hty : pr.type = Record_Type_SAMPLE) :
    dumpLoop c (frameRecord pr ++ rest)
      = match dumpLoop (c + 1) rest with
        | none => none
        | some (blocks, c') => some ((c + 1, pr.sample) :: blocks, c') := by
  have hsplit : frameRecord pr ++ rest
      = (serRecord pr).length % 256 :: (serRecord pr).length / 256 % 256
          :: (serRecord pr).length / 256 ^ 2 % 256
          :: (serRecord pr).length / 256 ^ 3 % 256
          :: (serRecord pr ++ rest) := by
    simp [frameRecord, writeLE32]
  rw [hsplit, dumpLoop]
  have hsz : (serRecord pr).length % 256
      + 256 * ((serRecord pr).length / 256 % 256)
      + 256 ^ 2 * ((serRecord pr).length / 256 ^ 2 % 256)
      + 256 ^ 3 * ((serRecord pr).length / 256 ^ 3 % 256)
      = (serRecord pr).length := le32_roundtrip _ hlen
  have hpos : 0 < (serRecord pr).length :=
    List.length_pos.mpr (serRecord_ne_nil pr)
  simp only [hsz]
  rw [if_neg (by omega), if_neg (by simp)]
  rw [List.take_left' rfl, List.drop_left' rfl, parseRecord_ser]
  simp [hty]

theorem dumpLoop_bad_type (c : Nat) (pr : ProtoRecord) (rest : List Nat)
    (hlen : (serRecord pr).length < 2 ^ 32)
    (hty : pr.type ≠ Record_Type_SAMPLE) :
    dumpLoop c (frameRecord pr ++ rest) = none := by
  have hsplit : frameRecord pr ++ rest
      = (serRecord pr).length % 256 :: (serRecord pr).length / 256 % 256
          :: (serRecord pr).length / 256 ^ 2 % 256
          :: (serRecord pr).length / 256 ^ 3 % 256
          :: (serRecord pr ++ rest) := by
    simp [frameRecord, writeLE32]
  rw [hsplit, dumpLoop]
  have hsz : (serRecord pr).length % 256
      + 256 * ((serRecord pr).length / 256 % 256)
      + 256 ^ 2 * ((serRecord pr).length / 256 ^ 2 % 256)
      + 256 ^ 3 * ((serRecord pr).length / 256 ^ 3 % 256)
      = (serRecord pr).length := le32_roundtrip _ hlen
  have hpos : 0 < (serRecord pr).length :=
    List.length_pos.mpr (serRecord_ne_nil pr)
  simp only [hsz]
  rw [if_neg (by omega), if_neg (by simp)]
  rw [List.take_left' rfl, parseRecord_ser]
  simp [hty]

/-! ### Option parsing and the driver -/

/-- C8: when the parsed options select protobuf mode without a report
filename, `ParseOptions` fails, and `Run` fails for every environment —
in particular before the record file is consulted. -/
theorem protobuf_requires_output_file (args : List String) (opts : Options)
    (hp : parseLoop args initOptions = some opts)
    (hpb : opts.use_protobuf = true) (ho : opts.report_filename = "") :
    ParseOptions args = none ∧ ∀ env : Env, Run env args = none := by
  have hPO : ParseOptions args = none := by
    simp [ParseOptions, hp, hpb, ho]
  exact ⟨hPO, fun env => by simp [Run, hPO]⟩

/-- C8 witness: `--protobuf` alone is rejected at option parsing for
every environment. -/
theorem protobuf_requires_output_file_witness :
    ParseOptions ["--protobuf"] = none
    ∧ ∀ env : Env, Run env ["--protobuf"] = none :=
  protobuf_requires_output_file ["--protobuf"]
    { initOptions with use_protobuf := true } (by decide) rfl rfl

/-! ### Round trip of the full stream -/

theorem numberFrom_map_snd (c : Nat) (l : List Sample) :
    (numberFrom c l).map Prod.snd = l := by
  induction l generalizing c with
  | nil => rfl
  | cons s t ih => simp [numberFrom, ih]

theorem numberFrom_length (c : Nat) (l : List Sample) :
    (numberFrom c l).length = l.length := by
  induction l generalizing c with
  | nil => rfl
  | cons s t ih => simp [numberFrom, ih]

theorem numberFrom_map_fst (c : Nat) (l : List Sample) :
    (numberFrom c l).map Prod.fst = List.range' (c + 1) l.length := by
  induction l generalizing c with
  | nil => rfl
  | cons s t ih => simp [numberFrom, ih, List.range'_succ]

theorem dumpLoop_stream (res : Nat → Nat → Resolver) (showCallchain : Bool) :
    ∀ (samples : List SampleRecord) (c : Nat),
      (∀ r ∈ samples,
        (serRecord (PrintSampleRecordInProtobuf (res r.pid r.tid) showCallchain
          r)).length < 2 ^ 32) →
      dumpLoop c (protobufOutput res showCallchain samples)
        = some (numberFrom c (samples.map fun r =>
            (PrintSampleRecordInProtobuf (res r.pid r.tid) showCallchain r).sample),
          c + samples.length) := by
  intro samples
  induction samples with
  | nil =>
    intro c _
    have h0 := dumpLoop_zero c []
    rw [List.append_nil] at h0
    simpa [protobufOutput, numberFrom] using h0
  | cons r t ih =>
    intro c hlen
    have hsplit : protobufOutput res showCallchain (r :: t)
        = frameRecord (PrintSampleRecordInProtobuf (res r.pid r.tid) showCallchain r)
          ++ protobufOutput res showCallchain t := by
      simp [protobufOutput]
    rw [hsplit, dumpLoop_frame c _ _
      (hlen r (List.mem_cons_self r t)) rfl]
    rw [ih (c + 1) (fun x hx => hlen x (List.mem_cons_of_mem r hx))]
    simp [numberFrom]
    omega

/-- C1: encoding a sequence of sample records in binary mode and decoding
the stream with the dump loop succeeds, yields exactly one rendered block
per sample in the original order, and each block carries the very sample
message that was written — the same timestamp and the same
`(ip, file, symbol)` for every frame — with the rendered lines produced
from exactly those values. -/
theorem protobuf_encode_decode_roundtrip (res : Nat → Nat → Resolver)
    (showCallchain : Bool) (samples : List SampleRecord) (c : Nat)
    (h : ∀ r ∈ samples,
      (serRecord (PrintSampleRecordInProtobuf (res r.pid r.tid) showCallchain
        r)).length < 2 ^ 32) :
    ∃ blocks,
      dumpLoop c (protobufOutput res showCallchain samples)
          = some (blocks, c + samples.length)
      ∧ blocks.length = samples.length
      ∧ blocks.map Prod.snd = samples.map (fun r =>
          (PrintSampleRecordInProtobuf (res r.pid r.tid) showCallchain r).sample)
      ∧ DumpProtobufReport c (some (protobufOutput res showCallchain samples))
          = some (blocks.flatMap (fun b => renderDecodedSample b.1 b.2),
            c + samples.length) := by
  refine ⟨numberFrom c (samples.map fun r =>
    (PrintSampleRecordInProtobuf (res r.pid r.tid) showCallchain r).sample),
    dumpLoop_stream res showCallchain samples c h, ?_, numberFrom_map_snd _ _, ?_⟩
  · rw [numberFrom_length]; simp
  · simp [DumpProtobufReport, dumpLoop_stream res showCallchain samples c h]

/-- C1 witness: a single sample with empty callchain encodes and decodes
back to itself as the one block numbered 1. -/
theorem protobuf_encode_decode_roundtrip_witness :
    ∃ blocks,
      dumpLoop 0 (protobufOutput (fun _ _ _ _ => ("", "")) false
          [⟨1, 1, 10, 5, false, []⟩])
          = some (blocks, 0 + [(⟨1, 1, 10, 5, false, []⟩ : SampleRecord)].length)
      ∧ blocks.length = [(⟨1, 1, 10, 5, false, []⟩ : SampleRecord)].length
      ∧ blocks.map Prod.snd = [(⟨1, 1, 10, 5, false, []⟩ : SampleRecord)].map
          (fun r => (PrintSampleRecordInProtobuf ((fun _ _ _ _ => ("", ""))
            r.pid r.tid) false r).sample)
      ∧ DumpProtobufReport 0 (some (protobufOutput (fun _ _ _ _ => ("", "")) false
          [⟨1, 1, 10, 5, false, []⟩]))
          = some (blocks.flatMap (fun b => renderDecodedSample b.1 b.2),
            0 + [(⟨1, 1, 10, 5, false, []⟩ : SampleRecord)].length) :=
  protobuf_encode_decode_roundtrip (fun _ _ _ _ => ("", "")) false
    [⟨1, 1, 10, 5, false, []⟩] 0 (by decide)

theorem dumpLoop_no_terminator (res : Nat → Nat → Resolver)
    (showCallchain : Bool) :
    ∀ (samples : List SampleRecord) (c : Nat),
      (∀ r ∈ samples,
        (serRecord (PrintSampleRecordInProtobuf (res r.pid r.tid) showCallchain
          r)).length < 2 ^ 32) →
      dumpLoop c (samples.flatMap fun r =>
          frameRecord (PrintSampleRecordInProtobuf (res r.pid r.tid)
            showCallchain r)) = none := by
  intro samples
  induction samples with
  | nil =>
    intro c _
    exact dumpLoop_short c [] (by simp)
  | cons r t ih =>
    intro c hlen
    rw [List.flatMap_cons,
      dumpLoop_frame c _ _ (hlen r (List.mem_cons_self r t)) rfl,
      ih (c + 1) (fun x hx => hlen x (List.mem_cons_of_mem r hx))]

/-- C6: the decoder terminates successfully exactly on reading a zero
length prefix: a stream starting with the 32-bit zero terminator decodes
to a clean empty tail; a stream too short to hold a length prefix fails;
and a well-formed stream of framed records that lacks its trailing
zero-length terminator fails rather than being accepted as "zero records
remaining". -/
theorem terminator_semantics (res : Nat → Nat → Resolver)
    (showCallchain : Bool) (samples : List SampleRecord) (c : Nat)
    (rest short : List Nat) (hshort : short.length < 4)
    (h : ∀ r ∈ samples,
      (serRecord (PrintSampleRecordInProtobuf (res r.pid r.tid) showCallchain
        r)).length < 2 ^ 32) :
    dumpLoop c (writeLE32 0 ++ rest) = some ([], c)
    ∧ dumpLoop c short = none
    ∧ dumpLoop c (samples.flatMap fun r =>
        frameRecord (PrintSampleRecordInProtobuf (res r.pid r.tid)
          showCallchain r)) = none :=
  ⟨dumpLoop_zero c rest, dumpLoop_short c short hshort,
    dumpLoop_no_terminator res showCallchain samples c h⟩

/-- C6 witness: the empty stream and a one-sample stream with the
terminator stripped both fail, while the bare terminator succeeds. -/
theorem terminator_semantics_witness :
    dumpLoop 0 (writeLE32 0 ++ []) = some ([], 0)
    ∧ dumpLoop 0 ([] : List Nat) = none
    ∧ dumpLoop 0 ([(⟨1, 1, 10, 5, false, []⟩ : SampleRecord)].flatMap fun r =>
        frameRecord (PrintSampleRecordInProtobuf ((fun _ _ _ _ => ("", ""))
          r.pid r.tid) false r)) = none :=
  terminator_semantics (fun _ _ _ _ => ("", "")) false
    [⟨1, 1, 10, 5, false, []⟩] 0 [] [] (by decide) (by decide)

/-- C7: in binary mode the run's output stream is the framed records
followed by the single little-endian 32-bit zero terminator, and when the
coded output stream reports an error at that point the whole run returns
failure; without the error it succeeds with exactly that stream. -/
theorem terminator_written_and_error_fatal (env : Env) (args : List String)
    (opts : Options) (samples : List SampleRecord)
    (hparse : ParseOptions args = some opts)
    (hdump : opts.dump_protobuf_report_file = "")
    (hpb : opts.use_protobuf = true)
    (hrec : env.recordFileSamples opts.record_filename = some samples) :
    (∃ body, protobufOutput env.res opts.show_callchain samples
        = body ++ writeLE32 0 ∧ writeLE32 0 = [0, 0, 0, 0])
    ∧ (env.outHadError = true → Run env args = none)
    ∧ (env.outHadError = false → Run env args
        = some (RunOutput.protobufReport
            (protobufOutput env.res opts.show_callchain samples))) := by
  refine ⟨⟨samples.flatMap fun r =>
    frameRecord (PrintSampleRecordInProtobuf (env.res r.pid r.tid)
      opts.show_callchain r), rfl, rfl⟩, ?_, ?_⟩
  · intro herr
    simp [Run, hparse, hdump, hrec, hpb, herr]
  · intro herr
    simp [Run, hparse, hdump, hrec, hpb, herr]

/-- C7 witness: with `--protobuf -o x`, an empty record file and the
coded stream reporting an error, the run fails; with no error it emits
the bare terminator stream. -/
theorem terminator_written_and_error_fatal_witness :
    (∃ body, protobufOutput (fun _ _ _ _ => ("", "")) false []
        = body ++ writeLE32 0 ∧ writeLE32 0 = [0, 0, 0, 0])
    ∧ ((true : Bool) = true →
        Run ⟨fun _ => none, fun _ => some [], fun _ _ _ _ => ("", ""), true⟩
          ["--protobuf", "-o", "x"] = none)
    ∧ ((true : Bool) = false →
        Run ⟨fun _ => none, fun _ => some [], fun _ _ _ _ => ("", ""), true⟩
          ["--protobuf", "-o", "x"]
          = some (RunOutput.protobufReport
              (protobufOutput (fun _ _ _ _ => ("", "")) false []))) :=
  terminator_written_and_error_fatal
    ⟨fun _ => none, fun _ => some [], fun _ _ _ _ => ("", ""), true⟩
    ["--protobuf", "-o", "x"]
    { record_filename := "perf.data", dump_protobuf_report_file := "",
      report_filename := "x", show_callchain := false, use_protobuf := true }
    [] (by decide) rfl rfl rfl

/-- C9: a framed record whose type tag is not `SAMPLE` makes the dump
loop return failure immediately, whatever bytes follow — no skipping to
the rest of the stream. -/
theorem decode_unexpected_type_fails (c : Nat) (pr : ProtoRecord)
    (rest : List Nat) (hlen : (serRecord pr).length < 2 ^ 32)
    (hty : pr.type ≠ Record_Type_SAMPLE) :
    dumpLoop c (frameRecord pr ++ rest) = none :=
  dumpLoop_bad_type c pr rest hlen hty

/-- C9 witness: a record with type tag 2 aborts decoding even when a
valid terminator follows. -/
theorem decode_unexpected_type_fails_witness :
    dumpLoop 0 (frameRecord ⟨2, ⟨0, []⟩⟩ ++ writeLE32 0) = none :=
  decode_unexpected_type_fails 0 ⟨2, ⟨0, []⟩⟩ (writeLE32 0) (by decide)
    (by decide)

/-! ### The static sample counter -/

theorem dumpLoop_shift : ∀ (n : Nat) (stream : List Nat), stream.length ≤ n →
    ∀ c blocks c', dumpLoop c stream = some (blocks, c') →
      ∀ d, dumpLoop d stream
        = some (numberFrom d (blocks.map Prod.snd), d + blocks.length) := by
  intro n
  induction n with
  | zero =>
    intro stream hlen c blocks c' h d
    rw [dumpLoop_short c stream (by omega)] at h
    simp at h
  | succ n ih =>
    intro stream hlen c blocks c' h d
    match stream with
    | [] => rw [dumpLoop_short c [] (by simp)] at h; simp at h
    | [a] => rw [dumpLoop_short c [a] (by simp)] at h; simp at h
    | [a, b] => rw [dumpLoop_short c [a, b] (by simp)] at h; simp at h
    | [a, b, e] => rw [dumpLoop_short c [a, b, e] (by simp)] at h; simp at h
    | b0 :: b1 :: b2 :: b3 :: rest =>
      simp only [dumpLoop] at h ⊢
      by_cases hz : b0 + 256 * b1 + 256 ^ 2 * b2 + 256 ^ 3 * b3 = 0
      · rw [if_pos hz] at h
        rw [if_pos hz]
        injection h with h
        injection h with hb hc
        subst hb
        simp [numberFrom]
      · rw [if_neg hz] at h
        rw [if_neg hz]
        by_cases hlt : rest.length < b0 + 256 * b1 + 256 ^ 2 * b2 + 256 ^ 3 * b3
        · rw [if_pos hlt] at h; simp at h
        · rw [if_neg hlt] at h
          rw [if_neg hlt]
          cases hp : parseRecord
              (rest.take (b0 + 256 * b1 + 256 ^ 2 * b2 + 256 ^ 3 * b3)) with
          | none => rw [hp] at h; simp at h
          | some pr =>
            rw [hp] at h
            dsimp only at h ⊢
            by_cases hty : pr.type ≠ Record_Type_SAMPLE
            · rw [if_pos hty] at h; simp at h
            · rw [if_neg hty] at h
              rw [if_neg hty]
              cases hd : dumpLoop (c + 1)
                  (rest.drop (b0 + 256 * b1 + 256 ^ 2 * b2 + 256 ^ 3 * b3)) with
              | none => rw [hd] at h; simp at h
              | some p =>
                obtain ⟨bs, c''⟩ := p
                rw [hd] at h
                dsimp only at h
                injection h with h
                injection h with hb hc
                subst hb
                have hlen2 : (rest.drop
                    (b0 + 256 * b1 + 256 ^ 2 * b2 + 256 ^ 3 * b3)).length ≤ n := by
                  simp only [List.length_cons] at hlen
                  simp only [List.length_drop]
                  omega
                rw [ih _ hlen2 (c + 1) bs c'' hd (d + 1)]
                simp [numberFrom]
                omega

theorem dumpLoop_numbering (stream : List Nat) (c : Nat)
    (blocks : List (Nat × Sample)) (c' : Nat)
    (h : dumpLoop c stream = some (blocks, c')) :
    blocks = numberFrom c (blocks.map Prod.snd) ∧ c' = c + blocks.length := by
  have hs := dumpLoop_shift stream.length stream le_rfl c blocks c' h c
  rw [h] at hs
  injection hs with hs
  injection hs with hb hc
  exact ⟨hb, hc⟩

/-- C10: the decoder's sample numbering lives in a function-local static
counter that is never reset, so re-running the dump loop on the same
input within one process continues the numbering: the first invocation's
first block is labelled 1, the second invocation's first block is
labelled one past the first invocation's count, and the two outputs
differ. -/
theorem static_counter_not_reset (s : List Nat) (b1 b2 : List (Nat × Sample))
    (c1 c2 : Nat) (h1 : dumpLoop 0 s = some (b1, c1)) (hne : b1 ≠ [])
    (h2 : dumpLoop c1 s = some (b2, c2)) :
    b1.head?.map Prod.fst = some 1
    ∧ b2.head?.map Prod.fst = some (b1.length + 1)
    ∧ b1 ≠ b2 := by
  obtain ⟨hb1, hc1⟩ := dumpLoop_numbering s 0 b1 c1 h1
  have hs := dumpLoop_shift s.length s le_rfl 0 b1 c1 h1 c1
  rw [h2] at hs
  injection hs with hs
  injection hs with hb2 hc2
  obtain ⟨x, t, hxt⟩ : ∃ x t, b1.map Prod.snd = x :: t := by
    cases hm : b1.map Prod.snd with
    | nil => exact absurd (List.map_eq_nil_iff.mp hm) hne
    | cons x t => exact ⟨x, t, rfl⟩
  have hlen1 : b1.length = t.length + 1 := by
    have : (b1.map Prod.snd).length = (x :: t).length := by rw [hxt]
    simpa using this
  constructor
  · rw [hb1, hxt]
    simp [numberFrom]
  constructor
  · rw [hb2, hxt]
    simp [numberFrom, hc1]
  · intro he
    rw [hb1, hb2, hxt] at he
    simp only [numberFrom] at he
    injection he with hhead _
    injection hhead with hnum _
    omega

/-- C10 witness: decoding a one-sample stream twice in a row, the first
pass labels its block 1, the second labels it 2, so the two outputs
differ. -/
theorem static_counter_not_reset_witness :
    ([(1, (⟨0, []⟩ : Sample))] : List (Nat × Sample)).head?.map Prod.fst = some 1
    ∧ ([(2, (⟨0, []⟩ : Sample))] : List (Nat × Sample)).head?.map Prod.fst
        = some (([(1, (⟨0, []⟩ : Sample))] : List (Nat × Sample)).length + 1)
    ∧ ([(1, (⟨0, []⟩ : Sample))] : List (Nat × Sample)) ≠ [(2, ⟨0, []⟩)] := by
  have hz1 : dumpLoop 1 (writeLE32 0) = some ([], 1) := by
    have := dumpLoop_zero 1 ([] : List Nat)
    rwa [List.append_nil] at this
  have hz2 : dumpLoop 2 (writeLE32 0) = some ([], 2) := by
    have := dumpLoop_zero 2 ([] : List Nat)
    rwa [List.append_nil] at this
  have h1 : dumpLoop 0 (frameRecord ⟨1, ⟨0, []⟩⟩ ++ writeLE32 0)
      = some ([(1, (⟨0, []⟩ : Sample))], 1) := by
    rw [dumpLoop_frame 0 ⟨1, ⟨0, []⟩⟩ (writeLE32 0) (by decide) rfl, hz1]
  have h2 : dumpLoop 1 (frameRecord ⟨1, ⟨0, []⟩⟩ ++ writeLE32 0)
      = some ([(2, (⟨0, []⟩ : Sample))], 2) := by
    rw [dumpLoop_frame 1 ⟨1, ⟨0, []⟩⟩ (writeLE32 0) (by decide) rfl, hz2]
  exact static_counter_not_reset (frameRecord ⟨1, ⟨0, []⟩⟩ ++ writeLE32 0)
    [(1, ⟨0, []⟩)] [(2, ⟨0, []⟩)] 1 2 h1 (by simp) h2

end ReportSample
